import Mathlib

/-!
Verification of the users CRUD core: data model, the two repository
backends, the users service, the repository selector, the cached
storage-engine registry, the request-scoped unit-of-work generator
and the seed routine.  Parts of the application whose modules are
absent from the tree (factory, repositories, service, selector, ORM
table) are modelled from the specification; the rest is translated
from the source files app/db/engine.py, app/db/session.py and
scripts/seed_users.py.
-/

/-- Modelled from the spec: a persisted account, with id assigned by the
storage layer, a login and an age (module app/models/user_model.py is
absent from the tree). -/
structure UserModel where
  id : Int
  login : String
  age : Int
deriving DecidableEq, Repr

/-- Modelled from the spec: a creation request carrying login and age and
no id (module app/models/user_model_create.py is absent from the tree). -/
structure UserModelCreate where
  login : String
  age : Int
deriving DecidableEq, Repr

/-- A parsed JSON value, the input shape of the users factory. -/
inductive JsonValue where
  | null : JsonValue
  | boolean : Bool → JsonValue
  | num : Int → JsonValue
  | str : String → JsonValue
  | arr : List JsonValue → JsonValue
  | obj : List (String × JsonValue) → JsonValue

/-- The validation failures of the users factory. -/
inductive ValidationError where
  | missingUsersField
  | usersNotASequence
  | malformedRecord
deriving DecidableEq, Repr

/-- Modelled from the spec: conversion of one record of the "users"
sequence into a UserModel; a missing or mistyped field is a validation
failure (module app/factories/users_factory.py is absent from the tree). -/
def parseUserRecord : JsonValue → Except ValidationError UserModel
  | .obj fields =>
    match fields.lookup "id", fields.lookup "login", fields.lookup "age" with
    | some (.num i), some (.str l), some (.num a) => .ok { id := i, login := l, age := a }
    | _, _, _ => .error .malformedRecord
  | _ => .error .malformedRecord

/-- Modelled from the spec: the factory operation create_users over a parsed
document, given as its field list.  It fails with a ValidationError when
the "users" field is absent, fails when the field is present but is not a
sequence, and otherwise converts each record in order (module
app/factories/users_factory.py is absent from the tree). -/
def UsersFactory.create_users (doc : List (String × JsonValue)) :
    Except ValidationError (List UserModel) :=
  match doc.lookup "users" with
  | none => .error .missingUsersField
  | some (.arr records) => records.mapM parseUserRecord
  | some _ => .error .usersNotASequence

/-- Modelled from the spec: the file-backed repository state, the in-memory
user list loaded at construction (module
app/repositories/users_repository_fake.py is absent from the tree). -/
structure FakeUsersRepository where
  users : List UserModel
deriving DecidableEq, Repr

/-- Modelled from the spec: list_users returns the full in-memory sequence
in load order. -/
def FakeUsersRepository.list_users (repo : FakeUsersRepository) : List UserModel :=
  repo.users

/-- Modelled from the spec: get_user_by_id is a linear scan returning the
matching user or an absent result, never a failure. -/
def FakeUsersRepository.get_user_by_id (repo : FakeUsersRepository) (user_id : Int) :
    Option UserModel :=
  repo.users.find? (fun u => u.id == user_id)

/-- Modelled from the spec: the id assigned by the file-backed create, the
maximum existing id plus one, or one when the store is empty. -/
def FakeUsersRepository.nextId (repo : FakeUsersRepository) : Int :=
  match repo.users.map UserModel.id with
  | [] => 1
  | x :: xs => xs.foldl max x + 1

/-- Modelled from the spec: create_user appends a user built from the
payload and the freshly computed id, and returns it together with the
updated store. -/
def FakeUsersRepository.create_user (repo : FakeUsersRepository) (payload : UserModelCreate) :
    FakeUsersRepository × UserModel :=
  let user : UserModel := { id := repo.nextId, login := payload.login, age := payload.age }
  ({ users := repo.users ++ [user] }, user)

/-- The failure surfaced by the relational backend on a constraint
violation (IntegrityError at the storage layer). -/
inductive DbError where
  | UniqueConstraintViolation
deriving DecidableEq, Repr

/-- Modelled from the spec: the relational users table, rows with columns
id (primary key), login (unique) and age (module
app/models_orm/user_table.py is absent from the tree; the constraints are
those the spec and the step_06 tests state). -/
structure UsersTable where
  rows : List UserModel
deriving DecidableEq, Repr

/-- Modelled from the spec: one row insertion against the users table; the
primary-key constraint on id and the unique constraint on login reject a
row that repeats either value. -/
def UsersTable.insertRow (t : UsersTable) (u : UserModel) : Except DbError UsersTable :=
  if t.rows.any (fun v => v.id == u.id || v.login == u.login) then
    .error .UniqueConstraintViolation
  else
    .ok { rows := t.rows ++ [u] }

/-- Modelled from the spec: the autoincrement id the storage engine assigns
to a newly inserted row, one more than the largest id in the table. -/
def UsersTable.nextId (t : UsersTable) : Int :=
  (t.rows.map UserModel.id).foldl max 0 + 1

/-- Modelled from the spec: the relational get_user_by_id, a point lookup
by primary key returning the row or an absent result, never a failure
(module app/repositories/users_repository_sql.py is absent from the
tree). -/
def UsersRepositorySql.get_user_by_id (t : UsersTable) (user_id : Int) : Option UserModel :=
  t.rows.find? (fun u => u.id == user_id)

/-- Modelled from the spec: the relational list_users, all rows in storage
order. -/
def UsersRepositorySql.list_users (t : UsersTable) : List UserModel :=
  t.rows

/-- Modelled from the spec: the relational create_user inserts a row with
the payload login and age, the engine assigning the id; a duplicate login
fails with UniqueConstraintViolation, propagated unchanged. -/
def UsersRepositorySql.create_user (t : UsersTable) (payload : UserModelCreate) :
    Except DbError (UsersTable × UserModel) :=
  let user : UserModel := { id := t.nextId, login := payload.login, age := payload.age }
  match t.insertRow user with
  | .ok t2 => .ok (t2, user)
  | .error e => .error e

/-- The repository capability set consumed polymorphically by the service,
over a backend state of type σ. -/
structure RepositoryOps (σ : Type) where
  list_users : σ → List UserModel
  get_user_by_id : σ → Int → Option UserModel
  create_user : σ → UserModelCreate → Except DbError (σ × UserModel)

/-- Modelled from the spec: the users service holds exactly one repository
(module app/services/users_service.py is absent from the tree; the
contract is IUsersService in app/services/protocols). -/
structure UsersService (σ : Type) where
  repository : RepositoryOps σ

/-- Modelled from the spec: list_users forwards to the repository. -/
def UsersService.list_users (svc : UsersService σ) (s : σ) : List UserModel :=
  svc.repository.list_users s

/-- Modelled from the spec: get_user_by_id forwards to the repository and
returns absent rather than failing when not found. -/
def UsersService.get_user_by_id (svc : UsersService σ) (s : σ) (user_id : Int) :
    Option UserModel :=
  svc.repository.get_user_by_id s user_id

/-- Modelled from the spec: create_user forwards to the repository and
propagates the uniqueness failure unchanged. -/
def UsersService.create_user (svc : UsersService σ) (s : σ) (payload : UserModelCreate) :
    Except DbError (σ × UserModel) :=
  svc.repository.create_user s payload

/-- The capability set of the relational repository. -/
def sqlRepositoryOps : RepositoryOps UsersTable where
  list_users := UsersRepositorySql.list_users
  get_user_by_id := UsersRepositorySql.get_user_by_id
  create_user := UsersRepositorySql.create_user

/-- The capability set of the file-backed repository, whose create never
fails. -/
def fakeRepositoryOps : RepositoryOps FakeUsersRepository where
  list_users := FakeUsersRepository.list_users
  get_user_by_id := FakeUsersRepository.get_user_by_id
  create_user := fun repo payload => .ok (repo.create_user payload)

/-- A users service bound to the relational repository. -/
def usersServiceSql : UsersService UsersTable :=
  { repository := sqlRepositoryOps }

/-- A users service bound to the file-backed repository. -/
def usersServiceFake : UsersService FakeUsersRepository :=
  { repository := fakeRepositoryOps }

/-- The configuration surface read by the selector and the engine registry
(app/core/settings.py is absent from the tree; the recognized options are
those the spec lists). -/
structure Settings where
  database_url : String
  users_backend : String
  users_json_path : String
deriving DecidableEq, Repr

/-- A unit-of-work handle (SQLAlchemy Session) identified by its checkout. -/
structure SessionHandle where
  id : Nat
deriving DecidableEq, Repr

/-- The repository value the selector constructs: a file-backed repository
recording the JSON path it was built from, or a relational repository
bound to the supplied unit-of-work handle. -/
inductive BuiltRepository where
  | fakeRepo (json_path : String)
  | sqlRepo (db : SessionHandle)
deriving DecidableEq, Repr

/-- The selector failure: invalid or incomplete backend configuration. -/
inductive DependencyError where
  | ConfigurationError
deriving DecidableEq, Repr

/-- Modelled from the spec: the repository selector build_users_repository
(module app/api/dependencies.py is absent from the tree).  Backend "fake"
builds the file-backed repository from the configured JSON path ignoring
any handle; backend "db" requires a handle and binds the relational
repository to it, failing with ConfigurationError when the handle is
absent; any other backend value fails at selection time. -/
def build_users_repository (settings : Settings) (db : Option SessionHandle) :
    Except DependencyError BuiltRepository :=
  if settings.users_backend = "fake" then
    .ok (.fakeRepo settings.users_json_path)
  else if settings.users_backend = "db" then
    match db with
    | some s => .ok (.sqlRepo s)
    | none => .error .ConfigurationError
  else
    .error .ConfigurationError

/-- The process-wide engine registry from app/db/engine.py: the lru_cache
on _cached_engine keyed by URL string, together with a counter of
create_engine calls so that distinct constructions are distinguishable.
Engines are represented by the construction number create_engine gave
them. -/
structure EngineState where
  cache : List (String × Nat)
  created : Nat
deriving DecidableEq, Repr

/-- The registry at process start: empty cache, no engine constructed. -/
def engineInit : EngineState :=
  { cache := [], created := 0 }

/-- The capacity of the bare lru_cache decorator on _cached_engine:
functools.lru_cache defaults to maxsize 128. -/
def lru_maxsize : Nat := 128

/-- From app/db/engine.py, _cached_engine under the bare lru_cache
decorator (maxsize 128, least-recently-used eviction).  The cache list is
kept in recency order, most recent first.  A hit returns the cached
engine and moves its entry to the front; a miss calls create_engine,
inserts the fresh engine at the front and drops the least recently used
entry when the cache would exceed its capacity. -/
def cached_engine (st : EngineState) (database_url : String) : EngineState × Nat :=
  match st.cache.lookup database_url with
  | some e =>
    ({ cache := (database_url, e) :: st.cache.eraseP (fun kv => kv.1 == database_url),
       created := st.created }, e)
  | none =>
    ({ cache := ((database_url, st.created) :: st.cache).take lru_maxsize,
       created := st.created + 1 },
     st.created)

/-- From app/db/engine.py, get_engine: when no URL is supplied the URL is
read from the settings, then the cached engine for that URL is returned. -/
def get_engine (settings : Settings) (st : EngineState) (database_url : Option String) :
    EngineState × Nat :=
  cached_engine st (database_url.getD settings.database_url)

/-- The URL a get_engine call resolves to. -/
def resolveUrl (settings : Settings) (database_url : Option String) : String :=
  database_url.getD settings.database_url

/-- From the tests and conftest: _cached_engine.cache_clear() empties the
lru_cache; engines already handed out keep existing. -/
def cache_clear (st : EngineState) : EngineState :=
  { cache := [], created := st.created }

/-- A sequence of get_engine calls, returning the final registry state and
the engine of each call in order. -/
def runGetEngines (settings : Settings) (st : EngineState) :
    List (Option String) → EngineState × List Nat
  | [] => (st, [])
  | u :: us =>
    let r1 := get_engine settings st u
    let r2 := runGetEngines settings r1.1 us
    (r2.1, r1.2 :: r2.2)

/-- A cache-overflowing call sequence: one URL, then 129 pairwise-distinct
other one-character URLs, then the first URL again. -/
def overflowCalls : List (Option String) :=
  some (String.mk [Char.ofNat 48]) ::
    ((List.range 129).map (fun k => some (String.mk [Char.ofNat (49 + k)])) ++
      [some (String.mk [Char.ofNat 48])])

/-- The request-scoped unit of work of app/db/session.py: the SQLAlchemy
session, counting how many times close was called on it. -/
structure DbSession where
  closeCount : Nat
deriving DecidableEq, Repr

/-- session.close(). -/
def DbSession.close (s : DbSession) : DbSession :=
  { closeCount := s.closeCount + 1 }

/-- The states of the get_db generator of app/db/session.py: not yet
started, suspended at the yield holding the session it handed out, or
terminated (with the session it created, when the body was entered). -/
inductive GetDbState where
  | start
  | suspended (db : DbSession)
  | finished (db : Option DbSession)
deriving DecidableEq, Repr

/-- The ways a consumer can drive the generator: resume it (next/send),
close it early, or throw an exception into it. -/
inductive GenOp where
  | next
  | closeGen
  | throwExc
deriving DecidableEq, Repr

/-- One step of the get_db generator, following Python generator
semantics for the body of get_db.  Entering the body creates the session
and suspends at the yield.  Closing or throwing into a generator that
never ran its body terminates it without creating a session.  From the
yield, every one of the three resumptions reaches the finally block, so
the session is closed exactly once before termination; a terminated
generator is inert. -/
def get_db_step : GetDbState → GenOp → GetDbState
  | .start, .next => .suspended { closeCount := 0 }
  | .start, .closeGen => .finished none
  | .start, .throwExc => .finished none
  | .suspended db, _ => .finished (some db.close)
  | .finished db, _ => .finished db

/-- Running the get_db generator against a whole consumer interaction. -/
def get_db_run (ops : List GenOp) : GetDbState :=
  ops.foldl get_db_step .start

/-- One record of the seed document, as scripts/seed_users.py reads it:
the caller-supplied id, login and age. -/
structure SeedRecord where
  id : Int
  login : String
  age : Int
deriving DecidableEq, Repr

/-- The row a seed record is inserted as, verbatim. -/
def SeedRecord.toUser (r : SeedRecord) : UserModel :=
  { id := r.id, login := r.login, age := r.age }

/-- From scripts/seed_users.py, line users_payload = data.get("users") or []
over documents whose "users" field is absent, null, or a record list: an
absent field and a null field (both falsy) give the empty list, a list
gives itself (the empty list being falsy also maps to the empty list). -/
def seed_users_payload : Option (Option (List SeedRecord)) → List SeedRecord
  | none => []
  | some none => []
  | some (some xs) => xs

/-- The insertion loop of scripts/seed_users.py inside engine.begin():
each record is inserted verbatim and counted; a constraint violation
aborts the transaction, which rolls back, so no table state nor count
survives a failure. -/
def seedInsertAll (t : UsersTable) : List SeedRecord → Except DbError (UsersTable × Nat)
  | [] => .ok (t, 0)
  | r :: rs =>
    match t.insertRow r.toUser with
    | .error e => .error e
    | .ok t1 =>
      match seedInsertAll t1 rs with
      | .error e => .error e
      | .ok (t2, n) => .ok (t2, n + 1)

/-- From scripts/seed_users.py, main: extract the users payload and insert
every record inside one transaction, reporting the inserted count. -/
def seed_main (t : UsersTable) (doc : Option (Option (List SeedRecord))) :
    Except DbError (UsersTable × Nat) :=
  seedInsertAll t (seed_users_payload doc)

/-- Folding max over a list bounds the seed and every element. -/
theorem le_foldl_max (xs : List Int) (a : Int) :
    a ≤ xs.foldl max a ∧ ∀ x ∈ xs, x ≤ xs.foldl max a := by
  induction xs generalizing a with
  | nil => simp
  | cons y ys ih =>
    refine ⟨le_trans (le_max_left a y) (ih (max a y)).1, ?_⟩
    intro x hx
    rcases List.mem_cons.mp hx with heq | hmem
    · subst heq
      exact le_trans (le_max_right a x) (ih (max a x)).1
    · exact (ih (max a y)).2 x hmem

/-- The id the file-backed create assigns is strictly above every stored
id. -/
theorem fake_nextId_fresh (repo : FakeUsersRepository) :
    ∀ u ∈ repo.users, u.id < repo.nextId := by
  intro u hu
  unfold FakeUsersRepository.nextId
  cases hm : repo.users.map UserModel.id with
  | nil =>
    have h0 : repo.users = [] := List.map_eq_nil_iff.mp hm
    rw [h0] at hu
    cases hu
  | cons x xs =>
    show u.id < List.foldl max x xs + 1
    have hmem : u.id ∈ x :: xs := hm ▸ List.mem_map_of_mem _ hu
    rcases List.mem_cons.mp hmem with heq | h
    · have h1 := (le_foldl_max xs x).1
      omega
    · have h1 := (le_foldl_max xs x).2 _ h
      omega

/-- The autoincrement id of the relational table is strictly above every
stored id. -/
theorem sql_nextId_fresh (t : UsersTable) :
    ∀ u ∈ t.rows, u.id < t.nextId := by
  intro u hu
  unfold UsersTable.nextId
  have := (le_foldl_max (t.rows.map UserModel.id) 0).2 _ (List.mem_map_of_mem _ hu)
  omega

/-- Scanning an appended fresh user finds exactly that user. -/
theorem find?_fresh_append (l : List UserModel) (u : UserModel)
    (h : ∀ v ∈ l, v.id ≠ u.id) :
    (l ++ [u]).find? (fun v => v.id == u.id) = some u := by
  rw [List.find?_append]
  have hnone : l.find? (fun v => v.id == u.id) = none := by
    rw [List.find?_eq_none]
    intro x hx
    simpa using h x hx
  rw [hnone]
  simp [List.find?]

/-- Unfolding of an association-list lookup over a cons cell for the
engine registry. -/
theorem lookup_cons_engine (a k : String) (v : Nat) (l : List (String × Nat)) :
    List.lookup a ((k, v) :: l) = if a = k then some v else List.lookup a l := by
  cases h : a == k with
  | true =>
    rw [if_pos (by simpa using h)]
    simp [List.lookup, h]
  | false =>
    rw [if_neg (by simpa using h)]
    simp [List.lookup, h]

/-- Erasing the entry of one key does not change the lookup of any other
key. -/
theorem lookup_eraseP_ne (l : List (String × Nat)) (u url : String) (h : u ≠ url) :
    (l.eraseP (fun kv => kv.1 == url)).lookup u = l.lookup u := by
  induction l with
  | nil => rfl
  | cons kv tl ih =>
    obtain ⟨k, v⟩ := kv
    by_cases hk : k = url
    · subst hk
      have h1 : ((k, v) :: tl).eraseP (fun kv => kv.1 == k) = tl := by
        simp [List.eraseP_cons]
      rw [h1, lookup_cons_engine, if_neg h]
    · have h1 : ((k, v) :: tl).eraseP (fun kv => kv.1 == url) =
          (k, v) :: tl.eraseP (fun kv => kv.1 == url) := by
        simp [List.eraseP_cons, hk]
      rw [h1, lookup_cons_engine, lookup_cons_engine]
      by_cases hu : u = k
      · rw [if_pos hu, if_pos hu]
      · rw [if_neg hu, if_neg hu, ih]

/-- Erasing a key from a cache whose keys are pairwise distinct removes
it from the keys. -/
theorem not_mem_keys_eraseP (l : List (String × Nat)) (url : String)
    (h : (l.map Prod.fst).Nodup) :
    url ∉ (l.eraseP (fun kv => kv.1 == url)).map Prod.fst := by
  induction l with
  | nil => simp
  | cons kv tl ih =>
    obtain ⟨k, v⟩ := kv
    have h2 : (k :: tl.map Prod.fst).Nodup := by simpa using h
    by_cases hk : k = url
    · subst hk
      have h1 : ((k, v) :: tl).eraseP (fun kv => kv.1 == k) = tl := by
        simp [List.eraseP_cons]
      rw [h1]
      simpa using (List.nodup_cons.mp h2).1
    · have h1 : ((k, v) :: tl).eraseP (fun kv => kv.1 == url) =
          (k, v) :: tl.eraseP (fun kv => kv.1 == url) := by
        simp [List.eraseP_cons, hk]
      rw [h1, List.map_cons]
      intro hmem
      rcases List.mem_cons.mp hmem with heq | hmem2
      · exact hk heq.symm
      · exact ih (List.nodup_cons.mp h2).2 hmem2

/-- A key the cache does not resolve is not among the cached keys. -/
theorem lookup_none_not_mem_keys (l : List (String × Nat)) (u : String)
    (h : l.lookup u = none) : u ∉ l.map Prod.fst := by
  induction l with
  | nil => simp
  | cons kv tl ih =>
    obtain ⟨k, v⟩ := kv
    rw [lookup_cons_engine] at h
    by_cases hk : u = k
    · rw [if_pos hk] at h
      exact Option.noConfusion h
    · rw [if_neg hk] at h
      rw [List.map_cons]
      intro hmem
      rcases List.mem_cons.mp hmem with heq | hm
      · exact hk heq
      · exact ih h hm

/-- Rewriting equation for cached_engine on a cache hit: the entry moves
to the front, nothing is constructed. -/
theorem cached_engine_eq_hit (st : EngineState) (u : String) (e : Nat)
    (h1 : st.cache.lookup u = some e) :
    cached_engine st u =
      ({ cache := (u, e) :: st.cache.eraseP (fun kv => kv.1 == u),
         created := st.created }, e) := by
  simp [cached_engine, h1]

/-- Rewriting equation for cached_engine on a cache miss: a fresh engine
is constructed, inserted in front, and the tail is truncated to the
capacity. -/
theorem cached_engine_eq_miss (st : EngineState) (u : String)
    (h1 : st.cache.lookup u = none) :
    cached_engine st u =
      ({ cache := ((u, st.created) :: st.cache).take lru_maxsize,
         created := st.created + 1 }, st.created) := by
  simp [cached_engine, h1]

/-- A hit reorders the cache but changes no lookup at all. -/
theorem cached_engine_hit_lookup (st : EngineState) (url : String) (e : Nat)
    (h1 : st.cache.lookup url = some e) (u : String) :
    (cached_engine st url).1.cache.lookup u = st.cache.lookup u := by
  rw [cached_engine_eq_hit st url e h1]
  by_cases hu : u = url
  · subst hu
    rw [lookup_cons_engine, if_pos rfl, h1]
  · rw [lookup_cons_engine, if_neg hu, lookup_eraseP_ne _ _ _ hu]

/-- The registry invariant: every cached engine predates the construction
counter, and an engine determines its URL. -/
def EngineInv (st : EngineState) : Prop :=
  (∀ u e, st.cache.lookup u = some e → e < st.created) ∧
  (∀ u1 u2 e, st.cache.lookup u1 = some e → st.cache.lookup u2 = some e → u1 = u2)

/-- The initial registry satisfies the invariant. -/
theorem engineInit_inv : EngineInv engineInit := by
  constructor
  · intro u e h
    simp [engineInit, List.lookup] at h
  · intro u1 u2 e h1 h2
    simp [engineInit, List.lookup] at h1

/-- Inserting the fresh engine binding preserves the registry invariant. -/
theorem engineInv_insert (st : EngineState) (u : String) (h : EngineInv st) :
    EngineInv { cache := (u, st.created) :: st.cache, created := st.created + 1 } := by
  constructor
  · intro u1 e1 hl
    show e1 < st.created + 1
    rw [lookup_cons_engine] at hl
    by_cases hc : u1 = u
    · rw [if_pos hc] at hl
      injection hl with h2
      omega
    · rw [if_neg hc] at hl
      have := h.1 u1 e1 hl
      omega
  · intro u1 u2 e1 hl1 hl2
    rw [lookup_cons_engine] at hl1 hl2
    by_cases hc1 : u1 = u <;> by_cases hc2 : u2 = u
    · rw [hc1, hc2]
    · rw [if_pos hc1] at hl1
      rw [if_neg hc2] at hl2
      have hlt := h.1 u2 e1 hl2
      injection hl1 with h2
      omega
    · rw [if_neg hc1] at hl1
      rw [if_pos hc2] at hl2
      have hlt := h.1 u1 e1 hl1
      injection hl2 with h2
      omega
    · rw [if_neg hc1] at hl1
      rw [if_neg hc2] at hl2
      exact h.2 u1 u2 e1 hl1 hl2

/-- On a miss against a cache below capacity no entry is evicted. -/
theorem cached_engine_miss_small (st : EngineState) (url : String)
    (h1 : st.cache.lookup url = none) (hlen : st.cache.length < lru_maxsize) :
    cached_engine st url =
      ({ cache := (url, st.created) :: st.cache, created := st.created + 1 },
       st.created) := by
  rw [cached_engine_eq_miss st url h1]
  have htake : ((url, st.created) :: st.cache).take lru_maxsize =
      (url, st.created) :: st.cache :=
    List.take_of_length_le (by simp [List.length_cons]; omega)
  rw [htake]

/-- The no-eviction invariant: the cached keys are pairwise distinct and
all lie in the set of URLs the process resolves. -/
def EngineBound (allowed : Finset String) (st : EngineState) : Prop :=
  (st.cache.map Prod.fst).Nodup ∧ ∀ k ∈ st.cache.map Prod.fst, k ∈ allowed

/-- The initial registry satisfies the no-eviction invariant for every URL
set. -/
theorem engineInit_bound (allowed : Finset String) : EngineBound allowed engineInit := by
  constructor
  · simp [engineInit]
  · intro k hk
    simp [engineInit] at hk

/-- Below a full URL set the cache is strictly below capacity whenever the
next URL is a miss. -/
theorem engineBound_length_lt (allowed : Finset String) (st : EngineState) (url : String)
    (hb : EngineBound allowed st) (hcard : allowed.card ≤ lru_maxsize)
    (hurl : url ∈ allowed) (hmiss : st.cache.lookup url = none) :
    st.cache.length < lru_maxsize := by
  have hnot : url ∉ st.cache.map Prod.fst := lookup_none_not_mem_keys _ _ hmiss
  have hsub : insert url (st.cache.map Prod.fst).toFinset ⊆ allowed := by
    intro x hx
    rcases Finset.mem_insert.mp hx with rfl | hx2
    · exact hurl
    · exact hb.2 x (List.mem_toFinset.mp hx2)
  have hcard2 : (insert url (st.cache.map Prod.fst).toFinset).card ≤ allowed.card :=
    Finset.card_le_card hsub
  have hni : url ∉ (st.cache.map Prod.fst).toFinset := by
    rw [List.mem_toFinset]
    exact hnot
  rw [Finset.card_insert_of_not_mem hni] at hcard2
  have hcf : (st.cache.map Prod.fst).toFinset.card = (st.cache.map Prod.fst).length :=
    List.toFinset_card_of_nodup hb.1
  rw [hcf, List.length_map] at hcard2
  omega

/-- cached_engine preserves the no-eviction invariant when the URL lies in
the covered set. -/
theorem cached_engine_bound (allowed : Finset String) (st : EngineState) (url : String)
    (hb : EngineBound allowed st) (hcard : allowed.card ≤ lru_maxsize)
    (hurl : url ∈ allowed) :
    EngineBound allowed (cached_engine st url).1 := by
  cases h1 : st.cache.lookup url with
  | some e =>
    rw [cached_engine_eq_hit st url e h1]
    have hsubkeys : ((st.cache.eraseP (fun kv => kv.1 == url)).map Prod.fst).Sublist
        (st.cache.map Prod.fst) :=
      List.Sublist.map Prod.fst (List.eraseP_sublist st.cache)
    constructor
    · show (url :: (st.cache.eraseP (fun kv => kv.1 == url)).map Prod.fst).Nodup
      rw [List.nodup_cons]
      exact ⟨not_mem_keys_eraseP st.cache url hb.1, hb.1.sublist hsubkeys⟩
    · intro k hk
      rcases List.mem_cons.mp hk with rfl | hk2
      · exact hurl
      · exact hb.2 k (hsubkeys.mem hk2)
  | none =>
    have hlen := engineBound_length_lt allowed st url hb hcard hurl h1
    rw [cached_engine_miss_small st url h1 hlen]
    constructor
    · show (url :: st.cache.map Prod.fst).Nodup
      rw [List.nodup_cons]
      exact ⟨lookup_none_not_mem_keys _ _ h1, hb.1⟩
    · intro k hk
      rcases List.mem_cons.mp hk with rfl | hk2
      · exact hurl
      · exact hb.2 k hk2

/-- While no eviction can occur, a URL already bound in the registry keeps
its engine across any further cached_engine call. -/
theorem cached_engine_lookup_preserved (allowed : Finset String) (st : EngineState)
    (url u : String) (e : Nat)
    (hb : EngineBound allowed st) (hcard : allowed.card ≤ lru_maxsize)
    (hurl : url ∈ allowed) (h : st.cache.lookup u = some e) :
    (cached_engine st url).1.cache.lookup u = some e := by
  cases h1 : st.cache.lookup url with
  | some e1 =>
    rw [cached_engine_hit_lookup st url e1 h1 u]
    exact h
  | none =>
    have hlen := engineBound_length_lt allowed st url hb hcard hurl h1
    rw [cached_engine_miss_small st url h1 hlen]
    have hne : u ≠ url := by
      intro hEq
      rw [hEq, h1] at h
      exact Option.noConfusion h
    rw [lookup_cons_engine, if_neg hne]
    exact h

/-- After a cached_engine call, the registry binds the URL of that call to
the engine the call returned: a hit keeps the entry in front, a miss puts
the fresh engine in front before truncating the tail. -/
theorem cached_engine_result_lookup (st : EngineState) (u : String) :
    (cached_engine st u).1.cache.lookup u = some (cached_engine st u).2 := by
  cases h1 : st.cache.lookup u with
  | some e =>
    rw [cached_engine_eq_hit st u e h1]
    rw [lookup_cons_engine, if_pos rfl]
  | none =>
    rw [cached_engine_eq_miss st u h1]
    have htake : ((u, st.created) :: st.cache).take lru_maxsize =
        (u, st.created) :: st.cache.take 127 := rfl
    rw [htake, lookup_cons_engine, if_pos rfl]

/-- While no eviction can occur, cached_engine preserves the registry
invariant. -/
theorem cached_engine_inv_step (allowed : Finset String) (st : EngineState) (url : String)
    (hb : EngineBound allowed st) (hcard : allowed.card ≤ lru_maxsize)
    (hurl : url ∈ allowed) (hinv : EngineInv st) :
    EngineInv (cached_engine st url).1 := by
  cases h1 : st.cache.lookup url with
  | some e =>
    have hcr : (cached_engine st url).1.created = st.created := by
      rw [cached_engine_eq_hit st url e h1]
    constructor
    · intro u e1 hl
      rw [cached_engine_hit_lookup st url e h1 u] at hl
      rw [hcr]
      exact hinv.1 u e1 hl
    · intro u1 u2 e1 hl1 hl2
      rw [cached_engine_hit_lookup st url e h1 u1] at hl1
      rw [cached_engine_hit_lookup st url e h1 u2] at hl2
      exact hinv.2 u1 u2 e1 hl1 hl2
  | none =>
    have hlen := engineBound_length_lt allowed st url hb hcard hurl h1
    rw [cached_engine_miss_small st url h1 hlen]
    exact engineInv_insert st url hinv

/-- Over a run whose resolved URLs all lie in a set that fits the cache,
the no-eviction invariant is maintained and every binding survives the
whole run. -/
theorem runGetEngines_bounded (settings : Settings) (allowed : Finset String)
    (hcard : allowed.card ≤ lru_maxsize) (us : List (Option String)) :
    ∀ (st : EngineState), (∀ u ∈ us, resolveUrl settings u ∈ allowed) →
      EngineBound allowed st →
      EngineBound allowed (runGetEngines settings st us).1 ∧
      (∀ (u : String) (e : Nat), st.cache.lookup u = some e →
        (runGetEngines settings st us).1.cache.lookup u = some e) := by
  induction us with
  | nil =>
    intro st hcover hb
    exact ⟨hb, fun u e h => h⟩
  | cons u1 us ih =>
    intro st hcover hb
    have hurl : resolveUrl settings u1 ∈ allowed := hcover u1 (List.mem_cons_self u1 us)
    have hcover2 : ∀ u ∈ us, resolveUrl settings u ∈ allowed :=
      fun u hu => hcover u (List.mem_cons_of_mem u1 hu)
    have hb2 : EngineBound allowed (get_engine settings st u1).1 :=
      cached_engine_bound allowed st (resolveUrl settings u1) hb hcard hurl
    have hrec := ih (get_engine settings st u1).1 hcover2 hb2
    constructor
    · show EngineBound allowed (runGetEngines settings (get_engine settings st u1).1 us).1
      exact hrec.1
    · intro u e h
      show (runGetEngines settings (get_engine settings st u1).1 us).1.cache.lookup u = some e
      exact hrec.2 u e
        (cached_engine_lookup_preserved allowed st (resolveUrl settings u1) u e hb hcard hurl h)

/-- Over a run whose resolved URLs fit the cache, the registry invariant
is maintained. -/
theorem runGetEngines_inv (settings : Settings) (allowed : Finset String)
    (hcard : allowed.card ≤ lru_maxsize) (us : List (Option String)) :
    ∀ (st : EngineState), (∀ u ∈ us, resolveUrl settings u ∈ allowed) →
      EngineBound allowed st → EngineInv st →
      EngineInv (runGetEngines settings st us).1 := by
  induction us with
  | nil =>
    intro st _ _ h
    exact h
  | cons u1 us ih =>
    intro st hcover hb hinv
    have hurl : resolveUrl settings u1 ∈ allowed := hcover u1 (List.mem_cons_self u1 us)
    have hcover2 : ∀ u ∈ us, resolveUrl settings u ∈ allowed :=
      fun u hu => hcover u (List.mem_cons_of_mem u1 hu)
    have hb2 : EngineBound allowed (get_engine settings st u1).1 :=
      cached_engine_bound allowed st (resolveUrl settings u1) hb hcard hurl
    have hinv2 : EngineInv (get_engine settings st u1).1 :=
      cached_engine_inv_step allowed st (resolveUrl settings u1) hb hcard hurl hinv
    show EngineInv (runGetEngines settings (get_engine settings st u1).1 us).1
    exact ih _ hcover2 hb2 hinv2

/-- One engine is returned per call. -/
theorem runGetEngines_length (settings : Settings) (us : List (Option String)) :
    ∀ (st : EngineState), (runGetEngines settings st us).2.length = us.length := by
  induction us with
  | nil =>
    intro st
    rfl
  | cons u1 us ih =>
    intro st
    show ((get_engine settings st u1).2 :: (runGetEngines settings _ us).2).length = us.length + 1
    rw [List.length_cons, ih]

/-- Over a run whose resolved URLs fit the cache, the engine each call
returns is the binding the final registry holds for the URL that call
resolved to. -/
theorem runGetEngines_result_lookup (settings : Settings) (allowed : Finset String)
    (hcard : allowed.card ≤ lru_maxsize) (us : List (Option String)) :
    ∀ (st : EngineState), (∀ u ∈ us, resolveUrl settings u ∈ allowed) →
      EngineBound allowed st →
      ∀ (i : Nat), i < us.length →
        (runGetEngines settings st us).1.cache.lookup (resolveUrl settings (us.getD i none)) =
          some ((runGetEngines settings st us).2.getD i 0) := by
  induction us with
  | nil =>
    intro st _ _ i hi
    exact absurd hi (by simp)
  | cons u1 us ih =>
    intro st hcover hb i hi
    have hurl : resolveUrl settings u1 ∈ allowed := hcover u1 (List.mem_cons_self u1 us)
    have hcover2 : ∀ u ∈ us, resolveUrl settings u ∈ allowed :=
      fun u hu => hcover u (List.mem_cons_of_mem u1 hu)
    have hb2 : EngineBound allowed (get_engine settings st u1).1 :=
      cached_engine_bound allowed st (resolveUrl settings u1) hb hcard hurl
    cases i with
    | zero =>
      show (runGetEngines settings (get_engine settings st u1).1 us).1.cache.lookup
          (resolveUrl settings u1) = some (((get_engine settings st u1).2 ::
            (runGetEngines settings (get_engine settings st u1).1 us).2).getD 0 0)
      rw [List.getD_cons_zero]
      exact (runGetEngines_bounded settings allowed hcard us _ hcover2 hb2).2 _ _
        (cached_engine_result_lookup st (resolveUrl settings u1))
    | succ i =>
      show (runGetEngines settings (get_engine settings st u1).1 us).1.cache.lookup
          (resolveUrl settings (us.getD i none)) = some (((get_engine settings st u1).2 ::
            (runGetEngines settings (get_engine settings st u1).1 us).2).getD (i + 1) 0)
      rw [List.getD_cons_succ]
      exact ih _ hcover2 hb2 i (by simpa using hi)

/-- A terminated get_db generator is inert: no further consumer action
changes its state or re-closes the session. -/
theorem get_db_finished_inert (ops : List GenOp) :
    ∀ (d : Option DbSession), ops.foldl get_db_step (.finished d) = .finished d := by
  induction ops with
  | nil =>
    intro d
    rfl
  | cons o os ih =>
    intro d
    show os.foldl get_db_step (get_db_step (.finished d) o) = .finished d
    have hstep : get_db_step (.finished d) o = .finished d := by
      cases o <;> rfl
    rw [hstep]
    exact ih d

/-- Shape of a successful relational create: the returned user carries the
autoincrement id and the payload fields, and the row is appended. -/
theorem sql_create_ok_shape (t t2 : UsersTable) (q : UserModelCreate) (u : UserModel)
    (hsql : UsersRepositorySql.create_user t q = .ok (t2, u)) :
    u = { id := t.nextId, login := q.login, age := q.age } ∧ t2.rows = t.rows ++ [u] := by
  unfold UsersRepositorySql.create_user UsersTable.insertRow at hsql
  by_cases hc : (t.rows.any fun v => v.id == t.nextId || v.login == q.login) = true
  · simp [hc] at hsql
  · simp only [hc, if_false, Bool.false_eq_true, if_neg] at hsql
    simp at hsql
    obtain ⟨h1, h2⟩ := hsql
    refine ⟨h2.symm, ?_⟩
    rw [← h1, ← h2]

/-- Claim C1: for every invocation of get_db, the session it yields is
closed on every exit path: after the generator has yielded its freshly
created session, every consumer continuation (resuming normally, closing
the generator early, or throwing an exception into it, followed by any
further actions) terminates the generator with the session closed
exactly once. -/
theorem get_db_closes_session_once (ops : List GenOp) (h : ops ≠ []) :
    get_db_run [GenOp.next] = .suspended { closeCount := 0 } ∧
    get_db_run (GenOp.next :: ops) = .finished (some { closeCount := 1 }) := by
  refine ⟨rfl, ?_⟩
  cases ops with
  | nil => exact absurd rfl h
  | cons o os =>
    show (o :: os).foldl get_db_step (get_db_step .start .next) =
      .finished (some { closeCount := 1 })
    show os.foldl get_db_step (get_db_step (.suspended { closeCount := 0 }) o) =
      .finished (some { closeCount := 1 })
    have h1 : get_db_step (.suspended { closeCount := 0 }) o =
        .finished (some { closeCount := 1 }) := by
      cases o <;> rfl
    rw [h1]
    exact get_db_finished_inert os _

/-- Witness for C1 at the early-close exit path. -/
theorem get_db_closes_session_once_witness :
    ([GenOp.closeGen] ≠ ([] : List GenOp)) ∧
    (get_db_run [GenOp.next] = .suspended { closeCount := 0 } ∧
      get_db_run [GenOp.next, GenOp.closeGen] = .finished (some { closeCount := 1 })) :=
  ⟨by decide, get_db_closes_session_once [GenOp.closeGen] (by decide)⟩

/-- Claim C2: the repository selector dispatches on users_backend: "fake"
builds the file-backed repository from the configured JSON path whatever
the handle; "db" with a handle binds the relational repository to that
handle; "db" without a handle fails with ConfigurationError; any other
backend value fails at selection time instead of defaulting. -/
theorem build_users_repository_dispatch (settings : Settings) (db : Option SessionHandle)
    (s : SessionHandle) :
    (settings.users_backend = "fake" →
      build_users_repository settings db = .ok (.fakeRepo settings.users_json_path)) ∧
    (settings.users_backend = "db" →
      build_users_repository settings (some s) = .ok (.sqlRepo s)) ∧
    (settings.users_backend = "db" →
      build_users_repository settings none = .error .ConfigurationError) ∧
    (settings.users_backend ≠ "fake" → settings.users_backend ≠ "db" →
      build_users_repository settings db = .error .ConfigurationError) := by
  refine ⟨?_, ?_, ?_, ?_⟩
  · intro h
    unfold build_users_repository
    rw [if_pos h]
  · intro h
    unfold build_users_repository
    rw [if_neg (by rw [h]; decide), if_pos h]
  · intro h
    unfold build_users_repository
    rw [if_neg (by rw [h]; decide), if_pos h]
  · intro h1 h2
    unfold build_users_repository
    rw [if_neg h1, if_neg h2]

/-- Witness for C2 on the fake backend and on the db backend without a
handle. -/
theorem build_users_repository_dispatch_witness :
    build_users_repository
        { database_url := "sqlite:///app.db", users_backend := "fake",
          users_json_path := "data/users.json" } none =
      .ok (.fakeRepo "data/users.json") ∧
    build_users_repository
        { database_url := "sqlite:///app.db", users_backend := "db",
          users_json_path := "data/users.json" } none =
      .error .ConfigurationError :=
  ⟨(build_users_repository_dispatch _ none ⟨0⟩).1 rfl,
   (build_users_repository_dispatch _ none ⟨0⟩).2.2.1 rfl⟩

/-- Claim C7: createUsers fails with a ValidationError when the "users"
field is absent from the document, and also when the field is present but
is not a sequence. -/
theorem create_users_validates_users_field (doc : List (String × JsonValue)) (v : JsonValue) :
    (doc.lookup "users" = none →
      UsersFactory.create_users doc = .error .missingUsersField) ∧
    (doc.lookup "users" = some v → (∀ xs, v ≠ .arr xs) →
      UsersFactory.create_users doc = .error .usersNotASequence) := by
  constructor
  · intro h
    unfold UsersFactory.create_users
    rw [h]
  · intro h hv
    unfold UsersFactory.create_users
    rw [h]
    cases v with
    | arr xs => exact absurd rfl (hv xs)
    | null => rfl
    | boolean b => rfl
    | num n => rfl
    | str s => rfl
    | obj fields => rfl

/-- Witness for C7: a document without the "users" field, and one whose
"users" field is a single mapping. -/
theorem create_users_validates_users_field_witness :
    UsersFactory.create_users [("not_users", JsonValue.arr [])] =
      .error .missingUsersField ∧
    UsersFactory.create_users
        [("users", JsonValue.obj [("id", JsonValue.num 1)])] =
      .error .usersNotASequence :=
  ⟨(create_users_validates_users_field [("not_users", JsonValue.arr [])]
      (JsonValue.arr [])).1 rfl,
   (create_users_validates_users_field [("users", JsonValue.obj [("id", JsonValue.num 1)])]
      (JsonValue.obj [("id", JsonValue.num 1)])).2 rfl
      (fun _xs hcon => JsonValue.noConfusion hcon)⟩

/-- Claim C10: the seed routine completes successfully after inserting
zero rows when the "users" field is absent, null, or the empty sequence;
unlike the factory, it performs no validation there and never fails. -/
theorem seed_tolerates_missing_users (t : UsersTable) :
    seed_main t none = .ok (t, 0) ∧
    seed_main t (some none) = .ok (t, 0) ∧
    seed_main t (some (some [])) = .ok (t, 0) :=
  ⟨rfl, rfl, rfl⟩

/-- Counterexample to C9 as stated: a document of two records sharing an
id makes the seed transaction fail on the primary-key constraint rather
than insert two rows and report two. -/
theorem seed_duplicate_id_counterexample :
    seed_main { rows := [] }
        (some (some [{ id := 1, login := "alice", age := 20 },
                     { id := 1, login := "bob", age := 22 }])) =
      .error .UniqueConstraintViolation := by
  rfl

/-- The seed loop inserts every record verbatim in order and counts them,
provided the records are pairwise distinct in id and login and conflict
with no stored row. -/
theorem seedInsertAll_ok (rs : List SeedRecord) :
    ∀ (t : UsersTable),
      rs.Pairwise (fun a b => a.id ≠ b.id ∧ a.login ≠ b.login) →
      (∀ r ∈ rs, ∀ u ∈ t.rows, u.id ≠ r.id ∧ u.login ≠ r.login) →
      seedInsertAll t rs = .ok ({ rows := t.rows ++ rs.map SeedRecord.toUser }, rs.length) := by
  induction rs with
  | nil =>
    intro t _ _
    simp [seedInsertAll]
  | cons r rs ih =>
    intro t hpair hfresh
    have hfresh_head := hfresh r (List.mem_cons_self r rs)
    have hcond : (t.rows.any fun v => v.id == r.toUser.id || v.login == r.toUser.login)
        = false := by
      rw [← Bool.not_eq_true, List.any_eq_true]
      rintro ⟨v, hv, hp⟩
      rcases hfresh_head v hv with ⟨hid, hlogin⟩
      simp [SeedRecord.toUser] at hp
      rcases hp with hc | hc
      · exact hid hc
      · exact hlogin hc
    have hins : t.insertRow r.toUser = .ok { rows := t.rows ++ [r.toUser] } := by
      unfold UsersTable.insertRow
      simp [hcond]
    have htail : ∀ r2 ∈ rs, ∀ u ∈ ({ rows := t.rows ++ [r.toUser] } : UsersTable).rows,
        u.id ≠ r2.id ∧ u.login ≠ r2.login := by
      intro r2 hr2 v hv
      rcases List.mem_append.mp hv with hv2 | hv2
      · exact hfresh r2 (List.mem_cons_of_mem r hr2) v hv2
      · have hveq : v = r.toUser := List.mem_singleton.mp hv2
        have hp := (List.pairwise_cons.mp hpair).1 r2 hr2
        subst hveq
        exact ⟨by simpa [SeedRecord.toUser] using hp.1,
               by simpa [SeedRecord.toUser] using hp.2⟩
    have hrec := ih { rows := t.rows ++ [r.toUser] } (List.pairwise_cons.mp hpair).2 htail
    show (match t.insertRow r.toUser with
      | Except.error e => Except.error e
      | Except.ok t1 =>
        match seedInsertAll t1 rs with
        | Except.error e => Except.error e
        | Except.ok (t2, n) => Except.ok (t2, n + 1)) =
      Except.ok ({ rows := t.rows ++ (r :: rs).map SeedRecord.toUser }, (r :: rs).length)
    rw [hins]
    show (match seedInsertAll { rows := t.rows ++ [r.toUser] } rs with
      | Except.error e => Except.error e
      | Except.ok (t2, n) => Except.ok (t2, n + 1)) =
      Except.ok ({ rows := t.rows ++ (r :: rs).map SeedRecord.toUser }, (r :: rs).length)
    rw [hrec]
    show (Except.ok ({ rows := (t.rows ++ [r.toUser]) ++ rs.map SeedRecord.toUser },
          rs.length + 1) : Except DbError (UsersTable × Nat)) =
      Except.ok ({ rows := t.rows ++ (r :: rs).map SeedRecord.toUser }, (r :: rs).length)
    rw [List.append_assoc, List.singleton_append, List.map_cons, List.length_cons]

/-- Claim C9 (amended): for every JSON document whose "users" field holds
a sequence of n records with pairwise-distinct ids and pairwise-distinct
logins, run against a table holding no row that shares an id or login
with any record, the seed routine inserts exactly n rows, one per record
in order, storing each record's caller-supplied id, login and age
verbatim, and reports n as the inserted count. -/
theorem seed_inserts_records_verbatim (t : UsersTable) (rs : List SeedRecord)
    (hpair : rs.Pairwise (fun a b => a.id ≠ b.id ∧ a.login ≠ b.login))
    (hfresh : ∀ r ∈ rs, ∀ u ∈ t.rows, u.id ≠ r.id ∧ u.login ≠ r.login) :
    seed_main t (some (some rs)) =
      .ok ({ rows := t.rows ++ rs.map SeedRecord.toUser }, rs.length) :=
  seedInsertAll_ok rs t hpair hfresh

/-- Witness for C9 (amended) at the two-record document the tests seed. -/
theorem seed_inserts_records_verbatim_witness :
    seed_main { rows := [] }
        (some (some [{ id := 1, login := "alice", age := 20 },
                     { id := 2, login := "bob", age := 22 }])) =
      .ok ({ rows := [{ id := 1, login := "alice", age := 20 },
                      { id := 2, login := "bob", age := 22 }] }, 2) := by
  have h := seed_inserts_records_verbatim { rows := [] }
      [{ id := 1, login := "alice", age := 20 }, { id := 2, login := "bob", age := 22 }]
      (by decide) (by simp)
  simpa [SeedRecord.toUser] using h

/-- Claim C4: when some stored row already has login L, the relational
create with login L fails with UniqueConstraintViolation, and the users
service forwards the repository outcome unchanged (no catch, retry or
replacement), so the identical failure reaches the caller. -/
theorem sql_create_duplicate_login_propagates (t : UsersTable) (L : String) (a : Int)
    (h : ∃ u ∈ t.rows, u.login = L) :
    UsersRepositorySql.create_user t { login := L, age := a } =
      .error .UniqueConstraintViolation ∧
    usersServiceSql.create_user t { login := L, age := a } =
      .error .UniqueConstraintViolation ∧
    ∀ (t2 : UsersTable) (p : UserModelCreate),
      usersServiceSql.create_user t2 p = UsersRepositorySql.create_user t2 p := by
  have hrepo : UsersRepositorySql.create_user t { login := L, age := a } =
      .error .UniqueConstraintViolation := by
    unfold UsersRepositorySql.create_user UsersTable.insertRow
    have hany : (t.rows.any fun v => v.id == t.nextId || v.login == L) = true := by
      rw [List.any_eq_true]
      obtain ⟨u, hu, hl⟩ := h
      exact ⟨u, hu, by simp [hl]⟩
    simp [hany]
  exact ⟨hrepo, hrepo, fun t2 p => rfl⟩

/-- Witness for C4 at a one-row table holding the login "alice". -/
theorem sql_create_duplicate_login_propagates_witness :
    UsersRepositorySql.create_user { rows := [{ id := 1, login := "alice", age := 20 }] }
        { login := "alice", age := 21 } = .error .UniqueConstraintViolation ∧
    usersServiceSql.create_user { rows := [{ id := 1, login := "alice", age := 20 }] }
        { login := "alice", age := 21 } = .error .UniqueConstraintViolation :=
  ⟨(sql_create_duplicate_login_propagates _ "alice" 21
      ⟨{ id := 1, login := "alice", age := 20 }, by simp, rfl⟩).1,
   (sql_create_duplicate_login_propagates _ "alice" 21
      ⟨{ id := 1, login := "alice", age := 20 }, by simp, rfl⟩).2.1⟩

/-- Claim C5: the file-backed create assigns the new user the id
max(existing ids) + 1 on a non-empty store and the id 1 on an empty
store, appends a user built from the payload's login and age with that
id, and returns it. -/
theorem fake_create_user_assigns_max_plus_one (repo : FakeUsersRepository)
    (payload : UserModelCreate) :
    (repo.users = [] → (repo.create_user payload).2.id = 1) ∧
    (repo.users ≠ [] →
      (repo.create_user payload).2.id =
        ((repo.users.map UserModel.id).max?.getD 0) + 1) ∧
    (repo.create_user payload).1.users = repo.users ++ [(repo.create_user payload).2] ∧
    (repo.create_user payload).2.login = payload.login ∧
    (repo.create_user payload).2.age = payload.age := by
  refine ⟨?_, ?_, rfl, rfl, rfl⟩
  · intro h
    show repo.nextId = 1
    unfold FakeUsersRepository.nextId
    rw [h]
    rfl
  · intro h
    show repo.nextId = ((repo.users.map UserModel.id).max?.getD 0) + 1
    unfold FakeUsersRepository.nextId
    cases hm : repo.users.map UserModel.id with
    | nil => exact absurd (List.map_eq_nil_iff.mp hm) h
    | cons x xs => rfl

/-- Witness for C5 at a one-user store. -/
theorem fake_create_user_assigns_max_plus_one_witness :
    (({ users := [{ id := 1, login := "alice", age := 20 }] } :
        FakeUsersRepository).create_user { login := "bob", age := 22 }).2.id =
      ((([{ id := 1, login := "alice", age := 20 }] :
        List UserModel).map UserModel.id).max?.getD 0) + 1 :=
  (fake_create_user_assigns_max_plus_one
    { users := [{ id := 1, login := "alice", age := 20 }] }
    { login := "bob", age := 22 }).2.1 (by decide)

/-- Claim C6: for both backends, get_user_by_id at an id that matches no
stored user returns the absent result (a total function into Option, so
no failure is possible), and the service forwards that absent result. -/
theorem get_user_by_id_absent_is_none (repo : FakeUsersRepository) (t : UsersTable) (i : Int)
    (h1 : ∀ u ∈ repo.users, u.id ≠ i) (h2 : ∀ u ∈ t.rows, u.id ≠ i) :
    repo.get_user_by_id i = none ∧
    UsersRepositorySql.get_user_by_id t i = none ∧
    usersServiceFake.get_user_by_id repo i = none ∧
    usersServiceSql.get_user_by_id t i = none := by
  have hf : repo.get_user_by_id i = none := by
    unfold FakeUsersRepository.get_user_by_id
    rw [List.find?_eq_none]
    intro x hx
    simpa using h1 x hx
  have hs : UsersRepositorySql.get_user_by_id t i = none := by
    unfold UsersRepositorySql.get_user_by_id
    rw [List.find?_eq_none]
    intro x hx
    simpa using h2 x hx
  exact ⟨hf, hs, hf, hs⟩

/-- Witness for C6 at the id 999 over one-row stores. -/
theorem get_user_by_id_absent_is_none_witness :
    ({ users := [{ id := 1, login := "alice", age := 20 }] } :
      FakeUsersRepository).get_user_by_id 999 = none ∧
    UsersRepositorySql.get_user_by_id
      { rows := [{ id := 1, login := "alice", age := 20 }] } 999 = none :=
  ⟨(get_user_by_id_absent_is_none { users := [{ id := 1, login := "alice", age := 20 }] }
      { rows := [{ id := 1, login := "alice", age := 20 }] } 999
      (by decide) (by decide)).1,
   (get_user_by_id_absent_is_none { users := [{ id := 1, login := "alice", age := 20 }] }
      { rows := [{ id := 1, login := "alice", age := 20 }] } 999
      (by decide) (by decide)).2.1⟩

/-- Claim C8: round-trip for both backends: looking up, by id, the user
returned by create finds a present user whose login and age equal the
payload's; for the relational backend this is under the hypothesis that
create accepted the payload. -/
theorem round_trip_create_then_get (repo : FakeUsersRepository) (t t2 : UsersTable)
    (p q : UserModelCreate) (u : UserModel)
    (hsql : UsersRepositorySql.create_user t q = .ok (t2, u)) :
    ((repo.create_user p).1.get_user_by_id (repo.create_user p).2.id =
        some (repo.create_user p).2 ∧
      (repo.create_user p).2.login = p.login ∧
      (repo.create_user p).2.age = p.age) ∧
    (UsersRepositorySql.get_user_by_id t2 u.id = some u ∧
      u.login = q.login ∧ u.age = q.age) := by
  constructor
  · refine ⟨?_, rfl, rfl⟩
    show (repo.users ++ [(repo.create_user p).2]).find?
        (fun v => v.id == (repo.create_user p).2.id) = some (repo.create_user p).2
    apply find?_fresh_append
    intro v hv
    show v.id ≠ repo.nextId
    have := fake_nextId_fresh repo v hv
    omega
  · obtain ⟨hu, ht2⟩ := sql_create_ok_shape t t2 q u hsql
    refine ⟨?_, by rw [hu], by rw [hu]⟩
    unfold UsersRepositorySql.get_user_by_id
    rw [ht2]
    apply find?_fresh_append
    intro v hv
    have hlt := sql_nextId_fresh t v hv
    rw [hu]
    show v.id ≠ t.nextId
    omega

/-- Witness for C8 over empty stores. -/
theorem round_trip_create_then_get_witness :
    (UsersRepositorySql.create_user { rows := [] } { login := "carol", age := 30 } =
      .ok ({ rows := [{ id := 1, login := "carol", age := 30 }] },
        { id := 1, login := "carol", age := 30 })) ∧
    ((({ users := [] } : FakeUsersRepository).create_user
          { login := "dave", age := 40 }).1.get_user_by_id
        (({ users := [] } : FakeUsersRepository).create_user
          { login := "dave", age := 40 }).2.id =
      some (({ users := [] } : FakeUsersRepository).create_user
          { login := "dave", age := 40 }).2) ∧
    (UsersRepositorySql.get_user_by_id { rows := [{ id := 1, login := "carol", age := 30 }] }
        ({ id := 1, login := "carol", age := 30 } : UserModel).id =
      some { id := 1, login := "carol", age := 30 }) :=
  ⟨rfl,
   (round_trip_create_then_get { users := [] } { rows := [] }
      { rows := [{ id := 1, login := "carol", age := 30 }] }
      { login := "dave", age := 40 } { login := "carol", age := 30 }
      { id := 1, login := "carol", age := 30 } rfl).1.1,
   (round_trip_create_then_get { users := [] } { rows := [] }
      { rows := [{ id := 1, login := "carol", age := 30 }] }
      { login := "dave", age := 40 } { login := "carol", age := 30 }
      { id := 1, login := "carol", age := 30 } rfl).2.1⟩

set_option maxRecDepth 40000 in
/-- Counterexample to C3 as stated: the bare lru_cache on _cached_engine
has capacity 128, so the 129 distinct URLs between the two calls that
resolve to the same URL evict its entry; the final call constructs a new
engine for that URL even though the cache was never cleared, against the
claim that two same-URL calls return the identical engine and that an
engine is only reconstructed after an explicit clear. -/
theorem engine_evicted_without_clear_counterexample :
    resolveUrl { database_url := "dburl", users_backend := "db", users_json_path := "p" }
        (overflowCalls.getD 0 none) =
      resolveUrl { database_url := "dburl", users_backend := "db", users_json_path := "p" }
        (overflowCalls.getD 130 none) ∧
    (runGetEngines { database_url := "dburl", users_backend := "db", users_json_path := "p" }
        engineInit overflowCalls).2.getD 0 0 ≠
      (runGetEngines { database_url := "dburl", users_backend := "db", users_json_path := "p" }
        engineInit overflowCalls).2.getD 130 0 := by
  decide

/-- Claim C3 (amended): provided the URLs the process resolves fit within
the 128-entry capacity of the bare lru_cache, so that no eviction can
occur, two get_engine calls resolving to the same URL string return the
identical engine, calls resolving to distinct URL strings return engines
from distinct constructions, and a URL bound in the registry only gets a
newly constructed engine after the cache is explicitly cleared. -/
theorem get_engine_cached_per_url (settings : Settings) (us : List (Option String))
    (allowed : Finset String) (hcard : allowed.card ≤ lru_maxsize)
    (hcover : ∀ u ∈ us, resolveUrl settings u ∈ allowed)
    (i j : Nat) (hi : i < us.length) (hj : j < us.length) (u : String) (e : Nat) :
    (resolveUrl settings (us.getD i none) = resolveUrl settings (us.getD j none) →
      (runGetEngines settings engineInit us).2.getD i 0 =
        (runGetEngines settings engineInit us).2.getD j 0) ∧
    (resolveUrl settings (us.getD i none) ≠ resolveUrl settings (us.getD j none) →
      (runGetEngines settings engineInit us).2.getD i 0 ≠
        (runGetEngines settings engineInit us).2.getD j 0) ∧
    ((runGetEngines settings engineInit us).1.cache.lookup u = some e →
      (get_engine settings (cache_clear (runGetEngines settings engineInit us).1)
          (some u)).2 ≠ e) := by
  have hbinit := engineInit_bound allowed
  have hres_i := runGetEngines_result_lookup settings allowed hcard us engineInit
    hcover hbinit i hi
  have hres_j := runGetEngines_result_lookup settings allowed hcard us engineInit
    hcover hbinit j hj
  have hinv := runGetEngines_inv settings allowed hcard us engineInit
    hcover hbinit engineInit_inv
  refine ⟨?_, ?_, ?_⟩
  · intro heq
    rw [heq] at hres_i
    exact Option.some_inj.mp (hres_i.symm.trans hres_j)
  · intro hne habs
    rw [← habs] at hres_j
    exact hne (hinv.2 _ _ _ hres_i hres_j)
  · intro hl
    have he : e < (runGetEngines settings engineInit us).1.created := hinv.1 u e hl
    show (cached_engine (cache_clear (runGetEngines settings engineInit us).1) u).2 ≠ e
    have hnone : (cache_clear (runGetEngines settings engineInit us).1).cache.lookup u
        = none := rfl
    rw [cached_engine_eq_miss _ _ hnone]
    show (runGetEngines settings engineInit us).1.created ≠ e
    omega

/-- Witness for C3 (amended) over three calls covered by a two-URL set:
one URL twice, the settings URL in between, then a clear. -/
theorem get_engine_cached_per_url_witness :
    (runGetEngines { database_url := "dburl", users_backend := "db", users_json_path := "p" }
        engineInit [some "u1", none, some "u1"]).2.getD 0 0 =
      (runGetEngines { database_url := "dburl", users_backend := "db", users_json_path := "p" }
        engineInit [some "u1", none, some "u1"]).2.getD 2 0 ∧
    (runGetEngines { database_url := "dburl", users_backend := "db", users_json_path := "p" }
        engineInit [some "u1", none, some "u1"]).2.getD 0 0 ≠
      (runGetEngines { database_url := "dburl", users_backend := "db", users_json_path := "p" }
        engineInit [some "u1", none, some "u1"]).2.getD 1 0 ∧
    (get_engine { database_url := "dburl", users_backend := "db", users_json_path := "p" }
        (cache_clear (runGetEngines
          { database_url := "dburl", users_backend := "db", users_json_path := "p" }
          engineInit [some "u1", none, some "u1"]).1)
        (some "u1")).2 ≠ 0 :=
  ⟨(get_engine_cached_per_url _ _ {"u1", "dburl"} (by decide) (by decide)
      0 2 (by decide) (by decide) "u1" 0).1 (by decide),
   (get_engine_cached_per_url _ _ {"u1", "dburl"} (by decide) (by decide)
      0 1 (by decide) (by decide) "u1" 0).2.1 (by decide),
   (get_engine_cached_per_url _ _ {"u1", "dburl"} (by decide) (by decide)
      0 1 (by decide) (by decide) "u1" 0).2.2 (by decide)⟩
